import Mathlib

/-!
# Sample C libraries: `facet-samplelibc` and `shapely-samplelibc`

A shallow embedding of the two translation units

* `src/shapely-samplelibc/src/example.c` (namespace `Shapely`)
* `src/facet-samplelibc/src/example.c`   (namespace `Facet`)

The preprocessor block selecting `EXPORT` becomes a function of the set of
predefined names, the static objects of each library become an explicit
library state, and the two exported functions become state-passing functions
returning a pointer and the state after the call.
-/

/-! ## Preprocessor: the `EXPORT` selection -/

/-- The three predefined names tested by the `#if` / `#elif` block; a field is
`true` when the toolchain defines that name. -/
structure Defines where
  _WIN32 : Bool
  _WIN64 : Bool
  __GNUC__ : Bool
  deriving DecidableEq, Repr

/-- The three possible replacement lists of `EXPORT`. -/
inductive Replacement
  /-- The tokens `__declspec(dllexport)`. -/
  | declspec_dllexport
  /-- The tokens `__attribute__((visibility("default")))`. -/
  | attribute_visibility_default
  /-- The empty replacement list of `#define EXPORT`. -/
  | empty
  deriving DecidableEq, Repr

/-- Whether a replacement list is an annotation that marks the declaration as
publicly exported: both non-empty lists are, the empty list annotates nothing. -/
def Replacement.isPublicExport : Replacement → Bool
  | .declspec_dllexport => true
  | .attribute_visibility_default => true
  | .empty => false

/-- A function definition of a translation unit, as written: the tokens in front
of the return type, the return type and the function name. -/
structure FunDecl where
  specifier : Replacement
  returns : String
  name : String
  deriving DecidableEq, Repr

/-- All eight combinations of the three predefined names. -/
def Defines.all : List Defines :=
  [ ⟨false, false, false⟩, ⟨false, false, true⟩, ⟨false, true, false⟩, ⟨false, true, true⟩,
    ⟨true, false, false⟩, ⟨true, false, true⟩, ⟨true, true, false⟩, ⟨true, true, true⟩ ]

/-! ## C objects shared by both embeddings -/

/-- The array a C string literal denotes: the characters of the literal as
bytes, followed by the terminating zero byte. -/
def literalArray (s : String) : List Nat :=
  s.toList.map Char.toNat ++ [0]

/-- Conversion of an integer to a signed type of `w` bits (two's complement
wrap-around). -/
def toSigned (w : Nat) (z : Int) : Int :=
  let m := z % (2 : Int) ^ w
  if m < (2 : Int) ^ (w - 1) then m else m - (2 : Int) ^ w

/-- Conversion of an integer to an unsigned type of `w` bits (reduction modulo
`2 ^ w`). -/
def toUnsigned (w : Nat) (z : Int) : Nat :=
  (z % (2 : Int) ^ w).toNat

/-- The bytes of a C string starting at the head of `bytes`: everything before
the first zero byte; `none` when there is no zero byte. -/
def cstring : List Nat → Option (List Nat)
  | [] => none
  | b :: rest => if b = 0 then some [] else (cstring rest).map (b :: ·)

namespace Shapely

/-- `EXPORT` as selected by lines 2-8 of `shapely-samplelibc/src/example.c`. -/
def EXPORT (d : Defines) : Replacement :=
  if d._WIN32 || d._WIN64 then Replacement.declspec_dllexport
  else if d.__GNUC__ then Replacement.attribute_visibility_default
  else Replacement.empty

/-- The function definitions of the translation unit. -/
def definitions (d : Defines) : List FunDecl :=
  [ ⟨EXPORT d, "const char*", "get_library_message"⟩ ]

/-- The static storage of the library: the array of the one string literal. -/
structure LibState where
  literal : List Nat
  deriving DecidableEq, Repr

/-- Pointers into the static storage: an offset into the literal array. -/
inductive Ptr
  | literal (off : Nat)
  deriving DecidableEq, Repr

/-- The state of the library right after it is loaded. -/
def load : LibState :=
  { literal := literalArray "IAMA C lib AMA" }

/-- `const char* get_library_message(void) { return "IAMA C lib AMA"; }`: the
address of the first element of the literal array; no object is touched. -/
def get_library_message (s : LibState) : Ptr × LibState :=
  (Ptr.literal 0, s)

/-- Read the C string a pointer designates. -/
def readString (s : LibState) : Ptr → Option (List Nat)
  | .literal off => cstring (s.literal.drop off)

/-- Read `n` bytes at a pointer; `none` when the object is shorter. -/
def readBytes (s : LibState) : Ptr → Nat → Option (List Nat)
  | .literal off, n =>
    if off + n ≤ s.literal.length then some ((s.literal.drop off).take n) else none

end Shapely

/-! ## Scalar types, byte order and the natural-alignment layout rule -/

/-- The exact-width integer types of `<stdint.h>` that the structs use. -/
inductive Scalar
  | int32_t
  | int64_t
  | uint32_t
  deriving DecidableEq, Repr

/-- Width in bits; fixed by the name of an exact-width type. -/
def Scalar.bits : Scalar → Nat
  | .int32_t => 32
  | .int64_t => 64
  | .uint32_t => 32

/-- Whether the type is signed. -/
def Scalar.isSigned : Scalar → Bool
  | .int32_t => true
  | .int64_t => true
  | .uint32_t => false

/-- Size in (8-bit) bytes. -/
def Scalar.size (t : Scalar) : Nat := t.bits / 8

/-- Conversion of an integer to the scalar type `t`. -/
def Scalar.convert (t : Scalar) (z : Int) : Int :=
  if t.isSigned then toSigned t.bits z else (toUnsigned t.bits z : Int)

/-- Size and alignment requirement of a type, in bytes. -/
structure TypeInfo where
  size : Nat
  align : Nat
  deriving DecidableEq, Repr

/-- Modelled from the spec: natural alignment of a scalar, which the source
leaves to the platform ABI: a scalar is aligned to its own size. -/
def Scalar.info (t : Scalar) : TypeInfo := ⟨t.size, t.size⟩

/-- Round `n` up to the next multiple of `a`. -/
def alignUp (n a : Nat) : Nat := (n + a - 1) / a * a

/-- Modelled from the spec: the natural-alignment layout rule for the members of
a struct, which the source leaves to the platform ABI: members are placed in
declaration order, each at the first offset at or after the end of the previous
member that is a multiple of its alignment. `cur` is the end of the previous
member. -/
def memberOffsets : Nat → List TypeInfo → List Nat
  | _, [] => []
  | cur, t :: ts => alignUp cur t.align :: memberOffsets (alignUp cur t.align + t.size) ts

/-- The offset one past the last member under `memberOffsets`. -/
def membersEnd : Nat → List TypeInfo → Nat
  | cur, [] => cur
  | cur, t :: ts => membersEnd (alignUp cur t.align + t.size) ts

/-- Modelled from the spec: size and alignment of a struct under natural
alignment: the alignment is the largest member alignment and the size is the
end of the last member rounded up to that alignment (tail padding). -/
def structInfo (members : List TypeInfo) : TypeInfo :=
  let a := members.foldl (fun acc t => max acc t.align) 1
  ⟨alignUp (membersEnd 0 members) a, a⟩

/-- Byte order of the platform. -/
inductive Endian
  | little
  | big
  deriving DecidableEq, Repr

/-- The `k` little-endian base-256 digits of `n`. -/
def digitsLE : Nat → Nat → List Nat
  | 0, _ => []
  | k + 1, n => n % 256 :: digitsLE k (n / 256)

/-- The number whose little-endian base-256 digits are `bs`. -/
def ofDigitsLE : List Nat → Nat
  | [] => 0
  | b :: bs => b + 256 * ofDigitsLE bs

/-- Object representation of a value of scalar type `t` (two's complement for
the signed types) in byte order `e`. -/
def Scalar.encode (e : Endian) (t : Scalar) (z : Int) : List Nat :=
  match e with
  | .little => digitsLE t.size (toUnsigned t.bits z)
  | .big => (digitsLE t.size (toUnsigned t.bits z)).reverse

/-- The value of scalar type `t` that the bytes `bs` represent in byte order `e`. -/
def Scalar.decode (e : Endian) (t : Scalar) (bs : List Nat) : Int :=
  match e with
  | .little => t.convert (ofDigitsLE bs)
  | .big => t.convert (ofDigitsLE bs.reverse)

/-- Lay byte strings out at their offsets, filling every gap with `pad`; `cur`
is the number of bytes already written. -/
def place (pad : Nat) : Nat → List (Nat × List Nat) → List Nat
  | _, [] => []
  | cur, (off, bs) :: rest =>
    List.replicate (off - cur) pad ++ bs ++ place pad (off + bs.length) rest

/-- Interpret bytes as a sequence of scalars, one after the other; `none` when
the bytes run out before the sequence does. -/
def readSeq (e : Endian) : List Scalar → List Nat → Option (List Int)
  | [], _ => some []
  | t :: ts, bs =>
    if t.size ≤ bs.length then
      (readSeq e ts (bs.drop t.size)).map (t.decode e (bs.take t.size) :: ·)
    else none

namespace Facet

/-- `EXPORT` as selected by lines 4-10 of `facet-samplelibc/src/example.c`. -/
def EXPORT (d : Defines) : Replacement :=
  if d._WIN32 || d._WIN64 then Replacement.declspec_dllexport
  else if d.__GNUC__ then Replacement.attribute_visibility_default
  else Replacement.empty

/-- The function definitions of the translation unit, in source order. -/
def definitions (d : Defines) : List FunDecl :=
  [ ⟨EXPORT d, "const char*", "get_library_message"⟩,
    ⟨EXPORT d, "Foo*", "get_foo"⟩ ]

/-- `typedef struct Bar { int32_t a; int32_t b; } Bar;` as a value. -/
structure Bar where
  a : Int
  b : Int
  deriving DecidableEq, Repr

/-- `typedef struct Foo { int64_t x; Bar bar; uint32_t y; } Foo;` as a value. -/
structure Foo where
  x : Int
  bar : Bar
  y : Nat
  deriving DecidableEq, Repr

/-- The member declarations of `struct Bar`, in declaration order. -/
def Bar.decl : List (String × Scalar) :=
  [("a", Scalar.int32_t), ("b", Scalar.int32_t)]

/-- The type of a member of `struct Foo`. -/
inductive MemberType
  | scalar (t : Scalar)
  | Bar
  deriving DecidableEq, Repr

/-- The member declarations of `struct Foo`, in declaration order. -/
def Foo.decl : List (String × MemberType) :=
  [("x", MemberType.scalar Scalar.int64_t), ("bar", MemberType.Bar),
   ("y", MemberType.scalar Scalar.uint32_t)]

/-- Size and alignment of `Bar`. -/
def Bar.info : TypeInfo := structInfo (Bar.decl.map (fun m => m.2.info))

/-- Offsets of the members of `Bar`, in declaration order. -/
def Bar.offsets : List Nat := memberOffsets 0 (Bar.decl.map (fun m => m.2.info))

/-- Size and alignment of a member type of `Foo`. -/
def MemberType.info : MemberType → TypeInfo
  | .scalar t => t.info
  | .Bar => Bar.info

/-- Size and alignment of `Foo`. -/
def Foo.info : TypeInfo := structInfo (Foo.decl.map (fun m => m.2.info))

/-- Offsets of the members of `Foo`, in declaration order. -/
def Foo.offsets : List Nat := memberOffsets 0 (Foo.decl.map (fun m => m.2.info))

/-- A scalar field of `Foo` after flattening the nested struct: its path, its
type and its byte offset from the start of the `Foo`. -/
structure Field where
  path : String
  type : Scalar
  offset : Nat
  deriving DecidableEq, Repr

/-- The scalar fields of a member of `Foo` placed at offset `off`. -/
def MemberType.fields (name : String) (off : Nat) : MemberType → List Field
  | .scalar t => [⟨name, t, off⟩]
  | .Bar => (Bar.decl.zip Bar.offsets).map (fun m => ⟨name ++ "." ++ m.1.1, m.1.2, off + m.2⟩)

/-- The scalar fields of `Foo`, in declaration order. -/
def Foo.fields : List Field :=
  (Foo.decl.zip Foo.offsets).flatMap (fun m => m.1.2.fields m.1.1 m.2)

/-- The values of the scalar fields of a `Foo`, in declaration order. -/
def Foo.values (v : Foo) : List Int := [v.x, v.bar.a, v.bar.b, (v.y : Int)]

/-- The object representation of a `Foo`: every scalar field at its offset,
`pad` in every padding byte, `sizeof(Foo)` bytes in all. -/
def Foo.image (e : Endian) (pad : Nat) (v : Foo) : List Nat :=
  let body := place pad 0
    ((Foo.fields.zip v.values).map (fun f => (f.1.offset, f.1.type.encode e f.2)))
  body ++ List.replicate (Foo.info.size - body.length) pad

/-- The initializer of the static local of `get_foo`:
`{ .x = 42, .bar = { .a = 10, .b = 20 }, .y = 30 }`, each constant converted to
the type of its field. -/
def sample_foo_init : Foo :=
  { x := Scalar.int64_t.convert 42,
    bar := { a := Scalar.int32_t.convert 10, b := Scalar.int32_t.convert 20 },
    y := (Scalar.uint32_t.convert 30).toNat }

/-- The objects the library functions can refer to: the array of the string
literal, the static local `sample_foo` of `get_foo`, and the `Foo` objects with
allocated storage (the source allocates none). -/
structure LibState where
  literal : List Nat
  sample_foo : Foo
  heap : List Foo
  deriving DecidableEq, Repr

/-- Addresses: an offset into the literal array, the address of the static
`sample_foo`, or the address of the `i`-th allocated `Foo`. -/
inductive Ptr
  | literal (off : Nat)
  | sample_foo
  | heap (i : Nat)
  deriving DecidableEq, Repr

/-- The state of the library right after it is loaded: static objects hold
their initializers and nothing is allocated. -/
def load : LibState :=
  { literal := literalArray "IAMA C lib AMA", sample_foo := sample_foo_init, heap := [] }

/-- `const char* get_library_message(void) { return "IAMA C lib AMA"; }`: the
address of the first element of the literal array; no object is touched. -/
def get_library_message (s : LibState) : Ptr × LibState :=
  (Ptr.literal 0, s)

/-- `Foo* get_foo(void) { static Foo sample_foo = ...; return &sample_foo; }`:
the address of the static local; no object is touched. -/
def get_foo (s : LibState) : Ptr × LibState :=
  (Ptr.sample_foo, s)

/-- Read the `Foo` a pointer designates; `none` when it designates no `Foo`. -/
def readFoo (s : LibState) : Ptr → Option Foo
  | .literal _ => none
  | .sample_foo => some s.sample_foo
  | .heap i => s.heap.get? i

/-- Write a `Foo` through a pointer, as a caller holding the non-const `Foo*`
can; `none` when the pointer designates no `Foo`. -/
def writeFoo (s : LibState) (v : Foo) : Ptr → Option LibState
  | .literal _ => none
  | .sample_foo => some { s with sample_foo := v }
  | .heap i => if i < s.heap.length then some { s with heap := s.heap.set i v } else none

/-- Read the C string a pointer designates. -/
def readString (s : LibState) : Ptr → Option (List Nat)
  | .literal off => cstring (s.literal.drop off)
  | _ => none

/-- The bytes of the object a pointer points into, from the pointer onwards. -/
def bytesFrom (e : Endian) (pad : Nat) (s : LibState) : Ptr → Option (List Nat)
  | .literal off => if off ≤ s.literal.length then some (s.literal.drop off) else none
  | p => (readFoo s p).map (Foo.image e pad)

/-- Read `n` bytes at a pointer; `none` when the object ends before that. -/
def readBytes (e : Endian) (pad : Nat) (s : LibState) (p : Ptr) (n : Nat) : Option (List Nat) :=
  (bytesFrom e pad s p).bind (fun bs => if n ≤ bs.length then some (bs.take n) else none)

/-- The exported operations. -/
inductive Call
  | get_library_message
  | get_foo
  deriving DecidableEq, Repr

/-- Perform one call. -/
def Call.exec : Call → LibState → Ptr × LibState
  | .get_library_message => Facet.get_library_message
  | .get_foo => Facet.get_foo

/-- What a caller reads through the pointer a call returned. -/
inductive Obs
  | message (bytes : Option (List Nat))
  | foo (v : Option Foo)
  deriving DecidableEq, Repr

/-- Read through the pointer returned by call `c` in state `s`. -/
def Call.observe (c : Call) (s : LibState) (p : Ptr) : Obs :=
  match c with
  | .get_library_message => Obs.message (readString s p)
  | .get_foo => Obs.foo (readFoo s p)

/-- Perform a sequence of calls, reading through each returned pointer right
after the call: the pointers, the readings and the final state. -/
def run : List Call → LibState → List (Ptr × Obs) × LibState
  | [], s => ([], s)
  | c :: cs, s =>
    let r := c.exec s
    let rest := run cs r.2
    ((r.1, c.observe r.2 r.1) :: rest.1, rest.2)

end Facet

/-! ## Helper lemmas -/

/-- A call returns its fixed pointer and the state it was given. -/
theorem Facet.Call.exec_snd (c : Facet.Call) (s : Facet.LibState) : (c.exec s).2 = s := by
  cases c <;> rfl

/-- A sequence of calls is the sequence of its calls each performed in the
initial state, and ends in the initial state. -/
theorem Facet.run_eq (cs : List Facet.Call) (s : Facet.LibState) :
    Facet.run cs s = (cs.map (fun c => ((c.exec s).1, c.observe s (c.exec s).1)), s) := by
  induction cs with
  | nil => rfl
  | cons c cs ih =>
    simp only [Facet.run, Facet.Call.exec_snd, ih, List.map_cons]

/-- The scalar fields of `Foo` with their offsets, evaluated. -/
theorem Facet.Foo.fields_eq :
    Facet.Foo.fields
      = [⟨"x", Scalar.int64_t, 0⟩, ⟨"bar.a", Scalar.int32_t, 8⟩, ⟨"bar.b", Scalar.int32_t, 12⟩,
         ⟨"y", Scalar.uint32_t, 16⟩] := by
  decide

/-- There are as many digits as were asked for. -/
theorem digitsLE_length (k n : Nat) : (digitsLE k n).length = k := by
  induction k generalizing n with
  | zero => rfl
  | succ k ih => simp [digitsLE, ih]

/-- The object representation of a scalar has the size of its type. -/
theorem Scalar.encode_length (e : Endian) (t : Scalar) (z : Int) :
    (t.encode e z).length = t.size := by
  cases e <;> simp [Scalar.encode, digitsLE_length]

/-- The object representation of a `Foo` is the representations of its four
scalar fields one after the other, followed by four padding bytes. -/
theorem Facet.Foo.image_eq (e : Endian) (pad : Nat) (v : Facet.Foo) :
    Facet.Foo.image e pad v
      = Scalar.int64_t.encode e v.x ++ Scalar.int32_t.encode e v.bar.a
        ++ Scalar.int32_t.encode e v.bar.b ++ Scalar.uint32_t.encode e (v.y : Int)
        ++ List.replicate 4 pad := by
  have hs : Facet.Foo.info.size = 24 := by decide
  unfold Facet.Foo.image
  rw [Facet.Foo.fields_eq, hs]
  simp [Facet.Foo.values, place, Scalar.encode_length, Scalar.size, Scalar.bits]

/-- The object representation of a `Foo` has 24 bytes. -/
theorem Facet.Foo.image_length (e : Endian) (pad : Nat) (v : Facet.Foo) :
    (Facet.Foo.image e pad v).length = 24 := by
  simp [Facet.Foo.image_eq, Scalar.encode_length, Scalar.size, Scalar.bits]

/-- Reading at most 24 bytes at the address of `sample_foo` gives that many
leading bytes of its object representation. -/
theorem Facet.readBytes_sample_foo (e : Endian) (pad : Nat) (s : Facet.LibState) (n : Nat)
    (h : n ≤ 24) :
    Facet.readBytes e pad s Facet.Ptr.sample_foo n
      = some ((Facet.Foo.image e pad s.sample_foo).take n) := by
  simp [Facet.readBytes, Facet.bytesFrom, Facet.readFoo, Facet.Foo.image_length, h]

/-- Bytes that follow the ones a sequence of scalars is read from do not change
what is read. -/
theorem readSeq_append (e : Endian) (ts : List Scalar) :
    ∀ (bs extra : List Nat) (r : List Int),
      readSeq e ts bs = some r → readSeq e ts (bs ++ extra) = some r := by
  induction ts with
  | nil => intro bs extra r h; simpa [readSeq] using h
  | cons t ts ih =>
    intro bs extra r h
    unfold readSeq at h ⊢
    by_cases hle : t.size ≤ bs.length
    · have hle2 : t.size ≤ (bs ++ extra).length := by
        rw [List.length_append]; omega
      rw [if_pos hle] at h
      rw [if_pos hle2, List.take_append_of_le_length hle, List.drop_append_of_le_length hle]
      cases hr : readSeq e ts (List.drop t.size bs) with
      | none => rw [hr] at h; exact absurd h (by simp)
      | some r2 =>
        rw [hr] at h
        rw [ih _ extra r2 hr]
        exact h
    · rw [if_neg hle] at h
      exact absurd h (by simp)

/-! ## Properties of the two libraries -/

/-- C1: in both libraries `get_library_message` ignores the state it is called
in, returns the address of the same array on every call, and that array is the
14 non-zero bytes of `IAMA C lib AMA` followed by one zero byte, 15 bytes in
all; the bytes of the two libraries are equal. -/
theorem get_library_message_constant :
    (∀ s t : Shapely.LibState,
        (Shapely.get_library_message s).1 = (Shapely.get_library_message t).1) ∧
    (∀ s t : Facet.LibState,
        (Facet.get_library_message s).1 = (Facet.get_library_message t).1) ∧
    (∀ n : Nat,
        Shapely.readBytes ((fun s => (Shapely.get_library_message s).2)^[n] Shapely.load)
          (Shapely.get_library_message
            ((fun s => (Shapely.get_library_message s).2)^[n] Shapely.load)).1 15
          = some ("IAMA C lib AMA".toList.map Char.toNat ++ [0])) ∧
    (∀ (n : Nat) (e : Endian) (pad : Nat),
        Facet.readBytes e pad ((fun s => (Facet.get_library_message s).2)^[n] Facet.load)
          (Facet.get_library_message
            ((fun s => (Facet.get_library_message s).2)^[n] Facet.load)).1 15
          = some ("IAMA C lib AMA".toList.map Char.toNat ++ [0])) ∧
    "IAMA C lib AMA".toList.map Char.toNat
      = [73, 65, 77, 65, 32, 67, 32, 108, 105, 98, 32, 65, 77, 65] ∧
    ("IAMA C lib AMA".toList.map Char.toNat).length = 14 ∧
    0 ∉ "IAMA C lib AMA".toList.map Char.toNat ∧
    Shapely.load.literal.length = 15 ∧
    Facet.load.literal.length = 15 ∧
    Shapely.readBytes Shapely.load (Shapely.get_library_message Shapely.load).1 16 = none ∧
    Shapely.readString Shapely.load (Shapely.get_library_message Shapely.load).1
      = some ("IAMA C lib AMA".toList.map Char.toNat) ∧
    Facet.readString Facet.load (Facet.get_library_message Facet.load).1
      = some ("IAMA C lib AMA".toList.map Char.toNat) ∧
    Facet.load.literal = Shapely.load.literal := by
  have hS : ∀ n : Nat,
      (fun s => (Shapely.get_library_message s).2)^[n] Shapely.load = Shapely.load :=
    fun n => Function.iterate_fixed rfl n
  have hF : ∀ n : Nat,
      (fun s => (Facet.get_library_message s).2)^[n] Facet.load = Facet.load :=
    fun n => Function.iterate_fixed rfl n
  refine ⟨fun _ _ => rfl, fun _ _ => rfl, ?_, ?_, by decide, by decide, by decide, by decide,
    by decide, by decide, by decide, by decide, by decide⟩
  · intro n
    rw [hS n]
    decide
  · intro n e pad
    rw [hF n]
    rfl

/-- C2: on the freshly loaded library `get_foo` returns a pointer to a `Foo`
whose fields read `x = 42`, `bar.a = 10`, `bar.b = 20`, `y = 30`; each constant
of the initializer lies in the range of its field type, so the conversion to
that type leaves it unchanged. -/
theorem get_foo_initial_fields :
    Facet.readFoo (Facet.get_foo Facet.load).2 (Facet.get_foo Facet.load).1
      = some { x := 42, bar := { a := 10, b := 20 }, y := 30 } ∧
    Scalar.int64_t.convert 42 = 42 ∧
    Scalar.int32_t.convert 10 = 10 ∧
    Scalar.int32_t.convert 20 = 20 ∧
    Scalar.uint32_t.convert 30 = 30 ∧
    (-(2 : Int) ^ 63 ≤ Facet.load.sample_foo.x ∧ Facet.load.sample_foo.x < (2 : Int) ^ 63) ∧
    (-(2 : Int) ^ 31 ≤ Facet.load.sample_foo.bar.a ∧
      Facet.load.sample_foo.bar.a < (2 : Int) ^ 31) ∧
    (-(2 : Int) ^ 31 ≤ Facet.load.sample_foo.bar.b ∧
      Facet.load.sample_foo.bar.b < (2 : Int) ^ 31) ∧
    Facet.load.sample_foo.y < 2 ^ 32 := by
  decide

/-- C3: `get_foo` is identity-stable. In every state it returns the address of
the one static `sample_foo`; a second call, made directly afterwards or after
any sequence of further library calls, returns that same address; within any
sequence of calls every `get_foo` returns it; and no call adds a `Foo` object:
the state, allocated objects included, is the one the call was made in. -/
theorem get_foo_identity_stable (s t : Facet.LibState) (cs : List Facet.Call) :
    (Facet.get_foo s).1 = Facet.Ptr.sample_foo ∧
    (Facet.get_foo s).1 = (Facet.get_foo t).1 ∧
    (Facet.get_foo (Facet.get_foo s).2).1 = (Facet.get_foo s).1 ∧
    (Facet.get_foo (Facet.run cs (Facet.get_foo s).2).2).1 = (Facet.get_foo s).1 ∧
    (((Facet.run cs s).1.zip cs).filter (fun r => r.2 = Facet.Call.get_foo)).map (fun r => r.1.1)
      = List.replicate (cs.count Facet.Call.get_foo) Facet.Ptr.sample_foo ∧
    (Facet.get_foo s).2 = s ∧
    (Facet.get_foo s).2.heap = s.heap ∧
    (Facet.run cs s).2.heap = s.heap ∧
    (Facet.run cs s).2 = s := by
  refine ⟨rfl, rfl, rfl, rfl, ?_, rfl, rfl, ?_, ?_⟩
  · rw [Facet.run_eq]
    induction cs with
    | nil => rfl
    | cons c cs ih =>
      cases c
      · simpa [List.count_cons] using ih
      · simpa [List.count_cons, List.replicate_succ, Facet.Call.exec, Facet.get_foo] using ih
  · rw [Facet.run_eq]
  · rw [Facet.run_eq]

/-- C4: under natural alignment the scalar fields of `Foo` come in declaration
order `x`, `bar.a`, `bar.b`, `y` with sizes 8, 4, 4, 4 and occupy bytes 0..7,
8..11, 12..15 and 16..19; the first starts at offset 0, each next one starts
where the previous one ends (no padding between fields), and every offset is a
multiple of the size of its field. -/
theorem Foo_field_layout :
    Facet.Foo.fields
      = [⟨"x", Scalar.int64_t, 0⟩, ⟨"bar.a", Scalar.int32_t, 8⟩, ⟨"bar.b", Scalar.int32_t, 12⟩,
         ⟨"y", Scalar.uint32_t, 16⟩] ∧
    Facet.Foo.fields.map (fun f => f.type.size) = [8, 4, 4, 4] ∧
    Facet.Foo.fields.map (fun f => (f.offset, f.offset + f.type.size - 1))
      = [(0, 7), (8, 11), (12, 15), (16, 19)] ∧
    Facet.Foo.decl.map (fun m => m.1) = ["x", "bar", "y"] ∧
    Facet.Foo.offsets = [0, 8, 16] ∧
    Facet.Bar.decl.map (fun m => m.1) = ["a", "b"] ∧
    Facet.Bar.offsets = [0, 4] ∧
    (Facet.Foo.fields.head?.map (fun f => f.offset)) = some 0 ∧
    List.Chain' (fun f g : Facet.Field => f.offset + f.type.size = g.offset) Facet.Foo.fields ∧
    (∀ f ∈ Facet.Foo.fields, f.type.size ∣ f.offset) := by
  refine ⟨by decide, by decide, by decide, by decide, by decide, by decide, by decide,
    by decide, ?_, by decide⟩
  rw [Facet.Foo.fields_eq]
  simp [Scalar.size, Scalar.bits]

/-- C5, refuted as stated: the 16 bytes read at the address returned by `get_foo`
hold only `x`, `bar.a` and `bar.b`; the sequence int64, int32, int32, uint32
needs 20 bytes, so interpreting the 16 bytes as that sequence does not yield
(42, 10, 20, 30). The same 16 bytes are read from a `Foo` whose `y` is 31. -/
theorem read_sixteen_bytes_incomplete :
    (Facet.readBytes Endian.little 0 (Facet.get_foo Facet.load).2 (Facet.get_foo Facet.load).1
        16).bind (readSeq Endian.little
          [Scalar.int64_t, Scalar.int32_t, Scalar.int32_t, Scalar.uint32_t])
      ≠ some [42, 10, 20, 30] ∧
    (Facet.Foo.image Endian.little 0 { x := 42, bar := { a := 10, b := 20 }, y := 30 }).take 16
      = (Facet.Foo.image Endian.little 0
          { x := 42, bar := { a := 10, b := 20 }, y := 31 }).take 16 := by
  refine ⟨?_, ?_⟩
  · have h : (Facet.readBytes Endian.little 0 (Facet.get_foo Facet.load).2
        (Facet.get_foo Facet.load).1 16).bind (readSeq Endian.little
          [Scalar.int64_t, Scalar.int32_t, Scalar.int32_t, Scalar.uint32_t]) = none := by decide
    rw [h]
    exact Option.noConfusion
  · rfl

/-- C5, amended: in either byte order and whatever the padding bytes hold,
reading 20 bytes at the address returned by `get_foo` on the freshly loaded
library, or all `sizeof(Foo)` = 24 bytes, and interpreting them as the sequence
int64, int32, int32, uint32 yields (42, 10, 20, 30); reading 16 bytes yields
the first three values (42, 10, 20) as int64, int32, int32, and is too short for
the whole sequence. -/
theorem read_foo_bytes_end_to_end (e : Endian) (pad : Nat) :
    (Facet.readBytes e pad (Facet.get_foo Facet.load).2 (Facet.get_foo Facet.load).1 20).bind
        (readSeq e [Scalar.int64_t, Scalar.int32_t, Scalar.int32_t, Scalar.uint32_t])
      = some [42, 10, 20, 30] ∧
    (Facet.readBytes e pad (Facet.get_foo Facet.load).2 (Facet.get_foo Facet.load).1
        Facet.Foo.info.size).bind
        (readSeq e [Scalar.int64_t, Scalar.int32_t, Scalar.int32_t, Scalar.uint32_t])
      = some [42, 10, 20, 30] ∧
    (Facet.readBytes e pad (Facet.get_foo Facet.load).2 (Facet.get_foo Facet.load).1 16).bind
        (readSeq e [Scalar.int64_t, Scalar.int32_t, Scalar.int32_t])
      = some [42, 10, 20] ∧
    (Facet.readBytes e pad (Facet.get_foo Facet.load).2 (Facet.get_foo Facet.load).1 16).bind
        (readSeq e [Scalar.int64_t, Scalar.int32_t, Scalar.int32_t, Scalar.uint32_t])
      = none := by
  have h16 := Facet.readBytes_sample_foo e pad Facet.load 16 (by decide)
  have h20 := Facet.readBytes_sample_foo e pad Facet.load 20 (by decide)
  have h24 := Facet.readBytes_sample_foo e pad Facet.load 24 (by decide)
  have hs : Facet.Foo.info.size = 24 := by decide
  obtain ⟨fb, hfb⟩ : ∃ fb : List Nat, fb
      = Scalar.int64_t.encode e Facet.load.sample_foo.x
        ++ Scalar.int32_t.encode e Facet.load.sample_foo.bar.a
        ++ Scalar.int32_t.encode e Facet.load.sample_foo.bar.b
        ++ Scalar.uint32_t.encode e (Facet.load.sample_foo.y : Int) := ⟨_, rfl⟩
  have himg : Facet.Foo.image e pad Facet.load.sample_foo = fb ++ List.replicate 4 pad := by
    rw [hfb]
    exact Facet.Foo.image_eq e pad _
  have hlen : fb.length = 20 := by
    rw [hfb]
    cases e <;> decide
  have t16 : (fb ++ List.replicate 4 pad).take 16 = fb.take 16 :=
    List.take_append_of_le_length (by omega)
  have t20 : (fb ++ List.replicate 4 pad).take 20 = fb := List.take_left' hlen
  have t24 : (fb ++ List.replicate 4 pad).take 24 = fb ++ List.replicate 4 pad :=
    List.take_of_length_le (by simp [hlen])
  have hseq : readSeq e [Scalar.int64_t, Scalar.int32_t, Scalar.int32_t, Scalar.uint32_t] fb
      = some [42, 10, 20, 30] := by
    rw [hfb]
    cases e <;> decide
  simp only [Facet.get_foo, hs, h16, h20, h24, Option.some_bind, himg, t16, t20, t24]
  refine ⟨hseq, readSeq_append e _ _ _ _ hseq, ?_, ?_⟩
  · rw [hfb]
    cases e <;> decide
  · rw [hfb]
    cases e <;> decide

/-- C6: neither operation has an effect or a failure mode. In every state, also
one in which `sample_foo` or the literal array holds other values, each call
returns a pointer through which the current object can be read and leaves the
state as it was; after a caller writes `v` through the pointer returned by
`get_foo`, the next `get_foo` reads `v` (no re-initialization); any sequence of
calls leaves the state as it was; and from the loaded state every `get_foo`
in a sequence reads (42, 10, 20, 30) and every `get_library_message` reads the
message. -/
theorem calls_have_no_effect (s : Facet.LibState) (v : Facet.Foo) (cs : List Facet.Call)
    (e : Endian) (pad : Nat) :
    (Facet.get_library_message s).2 = s ∧
    (Facet.get_foo s).2 = s ∧
    Facet.readFoo (Facet.get_foo s).2 (Facet.get_foo s).1 = some s.sample_foo ∧
    Facet.readBytes e pad (Facet.get_library_message s).2 (Facet.get_library_message s).1
        s.literal.length = some s.literal ∧
    (Facet.writeFoo s v (Facet.get_foo s).1).map
        (fun s1 => (Facet.readFoo (Facet.get_foo s1).2 (Facet.get_foo s1).1, (Facet.get_foo s1).2))
      = some (some v, { s with sample_foo := v }) ∧
    (Facet.run cs s).2 = s ∧
    (Facet.run cs Facet.load).1.map (fun r => r.2)
      = cs.map (fun c => match c with
          | Facet.Call.get_foo => Facet.Obs.foo (some { x := 42, bar := { a := 10, b := 20 }, y := 30 })
          | Facet.Call.get_library_message =>
            Facet.Obs.message (some [73, 65, 77, 65, 32, 67, 32, 108, 105, 98, 32, 65, 77, 65])) := by
  refine ⟨rfl, rfl, rfl, ?_, rfl, ?_, ?_⟩
  · simp [Facet.readBytes, Facet.bytesFrom, Facet.get_library_message]
  · rw [Facet.run_eq]
  · rw [Facet.run_eq]
    simp only [List.map_map]
    apply List.map_congr_left
    intro c _
    cases c
    · show Facet.Obs.message (Facet.readString Facet.load (Facet.Ptr.literal 0)) = _
      decide
    · show Facet.Obs.foo (Facet.readFoo Facet.load Facet.Ptr.sample_foo) = _
      decide

/-- C8, refuted as stated: when none of `_WIN32`, `_WIN64` and `__GNUC__` is
defined, `EXPORT` is defined with an empty replacement list, which is no export
annotation, in both source files. -/
theorem EXPORT_empty_without_known_toolchain :
    Facet.EXPORT ⟨false, false, false⟩ = Replacement.empty ∧
    Shapely.EXPORT ⟨false, false, false⟩ = Replacement.empty ∧
    (Facet.EXPORT ⟨false, false, false⟩).isPublicExport = false ∧
    ¬ (∀ d ∈ Defines.all, (Facet.EXPORT d).isPublicExport = true) := by
  decide

/-- C8, amended: `EXPORT` is `__declspec(dllexport)` for the six combinations in
which `_WIN32` or `_WIN64` is defined (also when `__GNUC__` is defined too),
`__attribute__((visibility("default")))` when only `__GNUC__` is defined, and
empty when none of the three is defined; it is a public-export annotation
exactly when at least one of the three names is defined; the selection is the
same in the two source files, and every function definition of either file
carries `EXPORT`: `get_library_message` in both and `get_foo` in
facet-samplelibc. -/
theorem EXPORT_selection (d : Defines) :
    Defines.all.map Facet.EXPORT
      = [Replacement.empty, Replacement.attribute_visibility_default,
         Replacement.declspec_dllexport, Replacement.declspec_dllexport,
         Replacement.declspec_dllexport, Replacement.declspec_dllexport,
         Replacement.declspec_dllexport, Replacement.declspec_dllexport] ∧
    d ∈ Defines.all ∧
    Facet.EXPORT d
      = (if d._WIN32 = true ∨ d._WIN64 = true then Replacement.declspec_dllexport
         else if d.__GNUC__ = true then Replacement.attribute_visibility_default
         else Replacement.empty) ∧
    (Facet.EXPORT d).isPublicExport = (d._WIN32 || d._WIN64 || d.__GNUC__) ∧
    Shapely.EXPORT d = Facet.EXPORT d ∧
    (Facet.definitions d).map (fun f => (f.name, f.specifier))
      = [("get_library_message", Facet.EXPORT d), ("get_foo", Facet.EXPORT d)] ∧
    (Shapely.definitions d).map (fun f => (f.name, f.specifier))
      = [("get_library_message", Shapely.EXPORT d)] := by
  obtain ⟨a, b, c⟩ := d
  cases a <;> cases b <;> cases c <;> decide

/-- C9: under natural alignment `Foo` has alignment 8 and size 24: its fields
end at byte 20 (8 + 4 + 4 + 4), 24 is the least multiple of 8 that is at least
20, and bytes 20..23 of the object representation are padding; `Bar` has size
8 and alignment 4 with its two fields at offsets 0 and 4 filling it; the field
`y` starts at offset 16, so none of its bytes lies below offset 16. -/
theorem Foo_size_and_alignment (e : Endian) (pad : Nat) (v : Facet.Foo) :
    Facet.Foo.info.align = 8 ∧
    Facet.Foo.info.size = 24 ∧
    (Facet.Foo.fields.map (fun f => f.type.size)).sum = 20 ∧
    membersEnd 0 (Facet.Foo.decl.map (fun m => m.2.info)) = 20 ∧
    Facet.Foo.info.size = alignUp 20 Facet.Foo.info.align ∧
    Facet.Foo.info.size % Facet.Foo.info.align = 0 ∧
    Scalar.int64_t.info.align = 8 ∧
    (Facet.Foo.image e pad v).length = 24 ∧
    (Facet.Foo.image e pad v).drop 20 = List.replicate 4 pad ∧
    (∀ f ∈ Facet.Foo.fields, f.offset + f.type.size ≤ 20) ∧
    Facet.Bar.info = ⟨8, 4⟩ ∧
    Facet.Bar.offsets = [0, 4] ∧
    (Facet.Bar.decl.map (fun m => m.2.size)).sum = Facet.Bar.info.size ∧
    membersEnd 0 (Facet.Bar.decl.map (fun m => m.2.info)) = Facet.Bar.info.size ∧
    Facet.Foo.fields.getLast? = some ⟨"y", Scalar.uint32_t, 16⟩ ∧
    (∀ f ∈ Facet.Foo.fields, f.path = "y" → 16 ≤ f.offset) := by
  refine ⟨by decide, by decide, by decide, by decide, by decide, by decide, by decide, ?_, ?_,
    by decide, by decide, by decide, by decide, by decide, by decide, by decide⟩
  · exact Facet.Foo.image_length e pad v
  · rw [Facet.Foo.image_eq]
    apply List.drop_left'
    simp [Scalar.encode_length, Scalar.size, Scalar.bits]
